import Mathlib

/-!
Verification of the chain-adapter / event-indexer layer of the
hyperlane-monorepo sources:

* `rust/chains/abacus-ethereum/src/outbox.rs`
  (`EthereumOutboxIndexer::fetch_sorted_messages`,
   `EthereumOutboxIndexer::fetch_sorted_checkpoints`,
   `EthereumOutbox::{latest_cached_checkpoint, status, state, local_domain, name}`)
* `rust/hyperlane-core/src/traits/mailbox.rs` (`Mailbox::process_batch` default body)
* `rust/chains/hyperlane-cosmos/src/routing_ism.rs` (`CosmosRoutingIsm::route`)

The embedding is shallow: every network interaction (an `ethers` contract
call, a log query, a gRPC query) is passed in explicitly, either as the list
of values the remote side would return, or as an oracle function.  Stateful
or effectful Rust becomes explicit value passing; the three ways a Rust
method can finish — `Ok`, `Err`, and a panic (`unreachable!()`,
overflow-checked `U256::as_u32`) — are kept apart in `RustOutcome`.
Machine integers are modelled as `Nat` with explicit bounds where the code
checks them.
-/

/-- Result of running a fallible Rust method: normal return, typed error
returned to the caller, or a panic that aborts the call (a panic is never
visible as a `Result` to the caller). -/
inductive RustOutcome (ε : Type) (α : Type) : Type
  | ok (a : α)
  | err (e : ε)
  | panicked
  deriving DecidableEq

/-- The slice of `ChainCommunicationError` that the sources under
verification construct: the `BatchingFailed` capability signal
(`mailbox.rs` line 49) and the wrapped transport / contract errors produced
by `?` conversions (`outbox.rs`, `routing_ism.rs`); the payload of a wrapped
error is abstracted to a numeric code. -/
inductive ChainCommunicationError : Type
  | BatchingFailed
  | CustomError (code : Nat)
  deriving DecidableEq

/-- A 32-byte hash / address, abstracted to its byte list. -/
abbrev H256 := List Nat

/-- Overflow-checked cast of a wide on-chain integer to `u32`
(`U256::as_u32` / `U64::as_u32` from the `uint` crate used by `ethers`):
returns the value unchanged when it fits in 32 bits and panics (`none`)
otherwise.  It never truncates. -/
def as_u32 (n : Nat) : Option Nat :=
  if n < 2 ^ 32 then some n else none

/-- Run an overflow-checked conversion over a list, propagating a panic
(models a Rust iterator `.map(..)` whose closure may panic, followed by
`.collect()`). -/
def mapChecked (f : α → Option β) : List α → Option (List β)
  | [] => some []
  | a :: l =>
    match f a, mapChecked f l with
    | some b, some bs => some (b :: bs)
    | _, _ => none

/-! ### Canonical data model (`abacus-core` side used by `outbox.rs`) -/

/-- A message observed dispatched, with its position in the append-only
leaf sequence. -/
structure RawCommittedMessage : Type where
  leaf_index : Nat
  message : List Nat
  deriving DecidableEq

/-- A snapshot commitment of the message tree. -/
structure Checkpoint : Type where
  outbox_domain : Nat
  root : H256
  index : Nat
  deriving DecidableEq

/-- Observation metadata attached to a checkpoint. -/
structure CheckpointMeta : Type where
  block_number : Nat
  deriving DecidableEq

/-- A checkpoint together with its observation metadata. -/
structure CheckpointWithMeta : Type where
  checkpoint : Checkpoint
  metadata : CheckpointMeta
  deriving DecidableEq

/-- Outbox lifecycle flag. -/
inductive State : Type
  | Waiting
  | Failed
  deriving DecidableEq

/-- Identifies one deployed contract instance. -/
structure ContractLocator : Type where
  domain : Nat
  address : H256
  name : String
  deriving DecidableEq

/-! ### Ethereum outbox indexer (`outbox.rs` lines 93-173)

The raw log queries (`dispatch_filter().query()`,
`checkpoint_cached_filter().query_with_meta()`) are network calls; their
result — the list of events in the order the provider returned them — is a
parameter.  `local_domain().call()` is likewise a network call; the list of
values successive calls would return is a parameter, and how much of that
list a function consumes is exactly how many times it queried. -/

/-- A raw `Dispatch` event as decoded from an EVM log: a 256-bit
`leaf_index` and the message bytes. -/
structure DispatchEvent : Type where
  leaf_index : Nat
  message : List Nat
  deriving DecidableEq

/-- A raw `CheckpointCached` event: 32-byte root, 256-bit index. -/
structure CheckpointCachedEvent : Type where
  root : H256
  index : Nat
  deriving DecidableEq

/-- Log metadata attached by `query_with_meta`: block number and position of
the transaction within the block (both 64-bit on chain). -/
structure LogMeta : Type where
  block_number : Nat
  transaction_index : Nat
  deriving DecidableEq

/-- Comparator used by `fetch_sorted_messages` (`outbox.rs` line 163):
ascending `leaf_index`.  Stated as the reflexive `cmp != Greater` preorder
that a stable sort by `a.leaf_index.cmp(&b.leaf_index)` orders by. -/
def msgLe (a b : DispatchEvent) : Prop :=
  a.leaf_index ≤ b.leaf_index

instance : DecidableRel msgLe := fun a b =>
  decidable_of_iff (a.leaf_index ≤ b.leaf_index) Iff.rfl

instance : IsTotal DispatchEvent msgLe :=
  ⟨by intro a b; unfold msgLe; omega⟩

instance : IsTrans DispatchEvent msgLe :=
  ⟨by intro a b c; unfold msgLe; omega⟩

/-- Comparator used by `fetch_sorted_checkpoints` (`outbox.rs` lines
117-124): `block_number` first, `transaction_index` to break ties —
the lexicographic preorder `cmp != Greater`. -/
def ckptLe (a b : CheckpointCachedEvent × LogMeta) : Prop :=
  a.2.block_number < b.2.block_number ∨
    (a.2.block_number = b.2.block_number ∧
      a.2.transaction_index ≤ b.2.transaction_index)

instance : DecidableRel ckptLe := fun a b =>
  decidable_of_iff
    (a.2.block_number < b.2.block_number ∨
      (a.2.block_number = b.2.block_number ∧
        a.2.transaction_index ≤ b.2.transaction_index)) Iff.rfl

instance : IsTotal (CheckpointCachedEvent × LogMeta) ckptLe :=
  ⟨by intro a b; unfold ckptLe; omega⟩

instance : IsTrans (CheckpointCachedEvent × LogMeta) ckptLe :=
  ⟨by intro a b c; unfold ckptLe; omega⟩

/-- The sort key of a checkpoint-cache event. -/
def eventKey (e : CheckpointCachedEvent × LogMeta) : Nat × Nat :=
  (e.2.block_number, e.2.transaction_index)

/-- The in-place `events.sort_by(..)` of `outbox.rs` lines 117-124.  Rust's
`sort_by` is specified as a stable sort by the comparator; `insertionSort`
with the matching total preorder is extensionally that sort (sorted, stable,
a permutation — which determines the output uniquely). -/
def sortCheckpointEvents (events : List (CheckpointCachedEvent × LogMeta)) :
    List (CheckpointCachedEvent × LogMeta) :=
  List.insertionSort ckptLe events

/-- The in-place `events.sort_by(|a, b| a.leaf_index.cmp(&b.leaf_index))`
of `outbox.rs` line 163, same stable-sort embedding. -/
def sortDispatchEvents (events : List DispatchEvent) : List DispatchEvent :=
  List.insertionSort msgLe events

/-- Per-event mapping of `fetch_sorted_messages` (`outbox.rs` lines
167-170): narrow the 256-bit `leaf_index` with the overflow-checked
`as_u32` (panics out of range) and keep the message bytes. -/
def toRawCommittedMessage (e : DispatchEvent) : Option RawCommittedMessage :=
  (as_u32 e.leaf_index).map fun i => { leaf_index := i, message := e.message }

/-- `EthereumOutboxIndexer::fetch_sorted_messages` (`outbox.rs` lines
154-172), after the log query succeeded with `events` in provider order:
sort by `leaf_index`, then map into canonical records; `as_u32` panics if a
leaf index exceeds `u32`. -/
def fetch_sorted_messages (events : List DispatchEvent) :
    RustOutcome ChainCommunicationError (List RawCommittedMessage) :=
  match mapChecked toRawCommittedMessage (sortDispatchEvents events) with
  | some ms => .ok ms
  | none => .panicked

/-- Per-event mapping of `fetch_sorted_checkpoints` (`outbox.rs` lines
130-143): build the canonical `Checkpoint` from the queried
`outbox_domain`, the event root, and the overflow-checked `index`, and keep
the block number as metadata. -/
def toCheckpointWithMeta (outbox_domain : Nat)
    (e : CheckpointCachedEvent × LogMeta) : Option CheckpointWithMeta :=
  (as_u32 e.1.index).map fun i =>
    { checkpoint := { outbox_domain := outbox_domain, root := e.1.root, index := i }
      metadata := { block_number := e.2.block_number } }

/-- `EthereumOutboxIndexer::fetch_sorted_checkpoints` (`outbox.rs` lines
104-145), after the log query succeeded with `events` in provider order.
`localDomainResps` is the stream of values successive
`local_domain().call()` network calls would return; the unconsumed suffix
is returned, so the number of elements consumed is the number of queries
made.  An empty stream models a failed contract call (`?` returns the
error); an out-of-range 256-bit checkpoint index panics in `as_u32`. -/
def fetch_sorted_checkpoints (localDomainResps : List Nat)
    (events : List (CheckpointCachedEvent × LogMeta)) :
    RustOutcome ChainCommunicationError (List CheckpointWithMeta × List Nat) :=
  let sorted := sortCheckpointEvents events
  match localDomainResps with
  | [] => .err (.CustomError 0)
  | outbox_domain :: rest =>
    match mapChecked (toCheckpointWithMeta outbox_domain) sorted with
    | some out => .ok (out, rest)
    | none => .panicked

/-! ### Ethereum outbox reads (`outbox.rs` lines 220-320) -/

/-- `EthereumOutbox` as built by `EthereumOutbox::new` (`outbox.rs` lines
207-217): the contract address, domain id and name are captured from the
`ContractLocator` at construction; the provider handle is not modelled. -/
structure EthereumOutbox : Type where
  address : H256
  domain : Nat
  name : String
  deriving DecidableEq

/-- `EthereumOutbox::new` (`outbox.rs` lines 207-217). -/
def EthereumOutbox.new (locator : ContractLocator) : EthereumOutbox :=
  { address := locator.address, domain := locator.domain, name := locator.name }

/-- `EthereumOutbox::local_domain` (`outbox.rs` lines 225-227): returns the
captured field; being a plain projection, it makes no network call. -/
def EthereumOutbox.local_domain (o : EthereumOutbox) : Nat :=
  o.domain

/-- Block resolution of `latest_cached_checkpoint` (`outbox.rs` line 270):
`if lag > tip { 0 } else { tip - lag }` on `u64`; the guard keeps the `u64`
subtraction from underflowing. -/
def resolveLagBlock (tip lag : Nat) : Nat :=
  if lag > tip then 0 else tip - lag

/-- `EthereumOutbox::latest_cached_checkpoint` (`outbox.rs` lines 256-280).
`tips` is the stream of values successive `get_block_number()` transport
calls would return (the unconsumed suffix is returned, so consumption
counts queries; an empty stream models a transport failure, mapped to
`CustomError` as on line 268).  `readAt` is the
`latest_cached_checkpoint()` contract call: given `none` it reads at the
chain's current head, given `some b` at block `b`; it yields the raw
`(root, index)` pair, whose 256-bit `index` is narrowed with the
overflow-checked `as_u32`. -/
def latest_cached_checkpoint (domain : Nat) (tips : List Nat)
    (readAt : Option Nat → RustOutcome ChainCommunicationError (H256 × Nat))
    (maybe_lag : Option Nat) :
    RustOutcome ChainCommunicationError (Checkpoint × List Nat) :=
  let finish (tag : Option Nat) (rest : List Nat) :
      RustOutcome ChainCommunicationError (Checkpoint × List Nat) :=
    match readAt tag with
    | .err e => .err e
    | .panicked => .panicked
    | .ok (root, index) =>
      match as_u32 index with
      | none => .panicked
      | some i => .ok ({ outbox_domain := domain, root := root, index := i }, rest)
  match maybe_lag with
  | none => finish none tips
  | some lag =>
    match tips with
    | [] => .err (.CustomError 0)
    | tip :: rest => finish (some (resolveLagBlock tip lag)) rest

/-- A transaction receipt as returned by
`client().get_transaction_receipt` — external `ethers` data, kept to the
fields the `Into<TxOutcome>` normalization uses. -/
structure TransactionReceipt : Type where
  transaction_hash : H256
  success : Bool
  gas_used : Nat
  deriving DecidableEq

/-- Normalized transaction result (spec data model: transaction identifier,
success flag, cost metadata). -/
structure TxOutcome : Type where
  txid : H256
  executed : Bool
  gas_used : Nat
  deriving DecidableEq

/-- Modelled from the spec: the `Into<TxOutcome>` normalization of a raw
receipt (`receipt_opt.map(Into::into)`, `outbox.rs` line 242); its `impl`
lives outside the sources under `src/`.  Spec section 6: `TxOutcome` is the
uniform shape of the source chain's native receipt. -/
def TransactionReceipt.toTxOutcome (r : TransactionReceipt) : TxOutcome :=
  { txid := r.transaction_hash, executed := r.success, gas_used := r.gas_used }

/-- `EthereumOutbox::status` (`outbox.rs` lines 233-243).  `getReceipt` is
the outcome of the `get_transaction_receipt` transport call for the queried
txid: `Ok(None)` when the transaction is unknown or pending, `Ok(Some r)`
when a receipt exists, `Err e` on transport failure (the error's payload is
abstracted to a code).  The `map_err(..)?` on lines 240 wraps a transport
error into a `ChainCommunicationError`. -/
def status (getReceipt : RustOutcome Nat (Option TransactionReceipt)) :
    RustOutcome ChainCommunicationError (Option TxOutcome) :=
  match getReceipt with
  | .err e => .err (.CustomError e)
  | .panicked => .panicked
  | .ok none => .ok none
  | .ok (some r) => .ok (some r.toTxOutcome)

/-- `EthereumOutbox::state` (`outbox.rs` lines 300-307).  `call` is the
outcome of the `state()` contract call returning the raw on-chain state
value; raw `0` maps to `Waiting`, raw `1` to `Failed`, and any other raw
value hits `unreachable!()` — a panic, not an `Err`. -/
def state (call : RustOutcome ChainCommunicationError Nat) :
    RustOutcome ChainCommunicationError State :=
  match call with
  | .err e => .err e
  | .panicked => .panicked
  | .ok 0 => .ok .Waiting
  | .ok 1 => .ok .Failed
  | .ok _ => .panicked

/-! ### Mailbox default batch processing (`mailbox.rs` lines 44-50) -/

/-- One element of a batch submission.  Its fields are irrelevant to the
default `process_batch`, which never inspects them; only the message is
kept. -/
structure BatchItem (μ : Type) : Type where
  data : μ
  deriving DecidableEq

/-- The default `Mailbox::process_batch` body (`mailbox.rs` lines 44-50),
translated with explicit chain-state passing: `σ` is whatever state a
concrete adapter could mutate.  The body is exactly
`Err(ChainCommunicationError::BatchingFailed)`: it ignores the messages and
touches no state. -/
def process_batch {σ μ : Type} (st : σ) (_messages : List (BatchItem μ)) :
    σ × RustOutcome ChainCommunicationError TxOutcome :=
  (st, .err .BatchingFailed)

/-! ### Cosmos routing ISM (`routing_ism.rs` lines 57-71) -/

/-- Modelled from the spec: the canonical message record (spec section 3)
whose wire layout (spec section 6) is
`origin (4) | sender (32) | destination (4) | recipient (32) | nonce (4) | body`;
the defining `hyperlane-core` message module is not among the sources under
`src/`. -/
structure HyperlaneMessage : Type where
  origin : Nat
  sender : H256
  destination : Nat
  recipient : H256
  nonce : Nat
  body : List Nat
  deriving DecidableEq

/-- Big-endian 4-byte encoding of a `u32` field for the wire layout. -/
def u32be (n : Nat) : List Nat :=
  [n / 2 ^ 24 % 256, n / 2 ^ 16 % 256, n / 2 ^ 8 % 256, n % 256]

/-- Modelled from the spec: `RawHyperlaneMessage::from(message)` — the
canonical wire bytes of a message, spec section 6 layout
`origin (4) | sender (32) | destination (4) | recipient (32) | nonce (4) | body`,
reproduced byte for byte; the encoder itself lives in `hyperlane-core`
outside the sources under `src/`. -/
def RawHyperlaneMessage.from (m : HyperlaneMessage) : List Nat :=
  u32be m.origin ++ m.sender ++ u32be m.destination ++ m.recipient ++
    u32be m.nonce ++ m.body

/-- One lowercase hex digit. -/
def hexDigit (n : Nat) : Char :=
  if n < 10 then Char.ofNat (48 + n) else Char.ofNat (87 + n)

/-- `hex::encode`: lowercase hex string of a byte list, two digits per
byte, high nibble first. -/
def hexEncode (bytes : List Nat) : String :=
  String.mk (bytes.foldr (fun b acc => hexDigit (b / 16 % 16) :: hexDigit (b % 16) :: acc) [])

/-- Inner payload of the routing query (`payloads/ism_routes.rs`):
`{ message: <hex string> }`. -/
structure IsmRouteRequestInner : Type where
  message : String
  deriving DecidableEq

/-- Routing query request envelope: `{ route: { message: <hex> } }`. -/
structure IsmRouteRequest : Type where
  route : IsmRouteRequestInner
  deriving DecidableEq

/-- Routing query response envelope: `{ ism: <chain-native address> }`
(the source's spelling of the type name is kept). -/
structure IsmRouteRespnose : Type where
  ism : String
  deriving DecidableEq

/-- `CosmosRoutingIsm::route` (`routing_ism.rs` lines 57-71).  The
collaborators outside these sources are parameters: `wasm_query` is the
read-only gRPC query against the chain's routing table (returns raw
response bytes); `parseResp` is the `serde_json::from_slice` decoding of
those bytes (`none` models a serde error, converted by `?` into the typed
error); `bech32_decode` is the chain-native (bech32) address decoding from
`verify.rs`, modelled from the spec as an abstract decoder into the 32-byte
address type.  The function hex-encodes the canonical wire bytes of the
message into the request envelope, issues the query, and decodes the
response's `ism` field. -/
def route (wasm_query : IsmRouteRequest → RustOutcome ChainCommunicationError (List Nat))
    (parseResp : List Nat → Option IsmRouteRespnose)
    (bech32_decode : String → H256)
    (message : HyperlaneMessage) : RustOutcome ChainCommunicationError H256 :=
  let payload : IsmRouteRequest :=
    { route := { message := hexEncode (RawHyperlaneMessage.from message) } }
  match wasm_query payload with
  | .err e => .err e
  | .panicked => .panicked
  | .ok data =>
    match parseResp data with
    | none => .err (.CustomError 1)
    | some response => .ok (bech32_decode response.ism)

/-! ### Helper lemmas -/

/-- Inserting `a` does not disturb the relative order of the elements
selected by a predicate `p` that forces the comparator to hold: `a` lands
before every selected element when `p a`, and among the others when not. -/
lemma filter_orderedInsert (r : α → α → Prop) [DecidableRel r] (p : α → Bool)
    (hkey : ∀ x y, p x = true → p y = true → r x y) (a : α) (s : List α) :
    (List.orderedInsert r a s).filter p =
      if p a then a :: s.filter p else s.filter p := by
  induction s with
  | nil => by_cases hpa : p a <;> simp [hpa]
  | cons b t ih =>
    simp only [List.orderedInsert]
    split
    · by_cases hpa : p a <;> simp [List.filter_cons, hpa]
    · case isFalse hr =>
        by_cases hpa : p a
        · have hpb : ¬p b = true := fun hb => hr (hkey a b hpa hb)
          simp [List.filter_cons, hpa, hpb, ih]
        · by_cases hpb : p b <;> simp [List.filter_cons, hpa, hpb, ih]

/-- Stability of `insertionSort` for equal keys: filtering the sorted list
by any predicate that forces the comparator gives the same list as
filtering the input, i.e. tied elements keep their relative order. -/
lemma filter_insertionSort (r : α → α → Prop) [DecidableRel r] (p : α → Bool)
    (hkey : ∀ x y, p x = true → p y = true → r x y) (l : List α) :
    (List.insertionSort r l).filter p = l.filter p := by
  induction l with
  | nil => rfl
  | cons b t ih =>
    simp only [List.insertionSort]
    rw [filter_orderedInsert r p hkey]
    by_cases hpb : p b <;> simp [List.filter_cons, hpb, ih]

/-- A successful overflow-checked narrowing keeps the leaf index. -/
lemma toRawCommittedMessage_leaf {e : DispatchEvent} {b : RawCommittedMessage}
    (h : toRawCommittedMessage e = some b) : b.leaf_index = e.leaf_index := by
  unfold toRawCommittedMessage as_u32 at h
  split at h
  · simp only [Option.map_some', Option.some_inj] at h
    rw [← h]
  · simp at h

/-- A successful `mapChecked` over the message conversion preserves the
sequence of leaf indices. -/
lemma mapChecked_toRaw_leaf :
    ∀ {l : List DispatchEvent} {ms : List RawCommittedMessage},
      mapChecked toRawCommittedMessage l = some ms →
      ms.map RawCommittedMessage.leaf_index = l.map DispatchEvent.leaf_index := by
  intro l
  induction l with
  | nil => intro ms h; simp [mapChecked] at h; simp [← h]
  | cons a t ih =>
    intro ms h
    simp only [mapChecked] at h
    rcases hfa : toRawCommittedMessage a with _ | b <;> rw [hfa] at h
    · simp at h
    · rcases hrec : mapChecked toRawCommittedMessage t with _ | bs <;> rw [hrec] at h
      · simp at h
      · simp only [Option.some_inj] at h
        rw [← h]
        simp [toRawCommittedMessage_leaf hfa, ih hrec]

/-- Every checkpoint produced by a successful `mapChecked` conversion
carries the domain value passed in. -/
lemma mapChecked_ckpt_domain (d : Nat) :
    ∀ {l : List (CheckpointCachedEvent × LogMeta)} {out : List CheckpointWithMeta},
      mapChecked (toCheckpointWithMeta d) l = some out →
      ∀ c ∈ out, c.checkpoint.outbox_domain = d := by
  intro l
  induction l with
  | nil => intro out h; simp [mapChecked] at h; subst h; simp
  | cons a t ih =>
    intro out h
    simp only [mapChecked] at h
    rcases hfa : toCheckpointWithMeta d a with _ | b <;> rw [hfa] at h
    · simp at h
    · rcases hrec : mapChecked (toCheckpointWithMeta d) t with _ | bs <;> rw [hrec] at h
      · simp at h
      · simp only [Option.some_inj] at h
        rw [← h]
        intro c hc
        rcases List.mem_cons.mp hc with hcb | hct
        · subst hcb
          unfold toCheckpointWithMeta at hfa
          rcases hu : as_u32 a.1.index with _ | i <;> rw [hu] at hfa
          · simp at hfa
          · simp only [Option.map_some', Option.some_inj] at hfa
            rw [← hfa]
        · exact ih hrec c hct

/-! ### Claim theorems -/

/-- C1: for every block-range query result (any list of dispatch events in
any arrival order, with pairwise distinct leaf indices as the contract
guarantees), whenever `fetch_sorted_messages` returns a sequence, the
`leaf_index` values of that sequence are strictly increasing. -/
theorem fetch_sorted_messages_strictly_increasing
    (events : List DispatchEvent)
    (hdist : events.Pairwise (fun a b => a.leaf_index ≠ b.leaf_index))
    (ms : List RawCommittedMessage)
    (h : fetch_sorted_messages events = .ok ms) :
    List.Sorted (fun a b : Nat => a < b) (ms.map RawCommittedMessage.leaf_index) := by
  have hm : mapChecked toRawCommittedMessage (sortDispatchEvents events) = some ms := by
    unfold fetch_sorted_messages at h
    rcases hm : mapChecked toRawCommittedMessage (sortDispatchEvents events) with _ | ms2 <;>
      rw [hm] at h
    · exact RustOutcome.noConfusion h
    · injection h with h2
      rw [h2]
  have hsorted : List.Sorted msgLe (sortDispatchEvents events) :=
    List.sorted_insertionSort msgLe events
  have hperm : (sortDispatchEvents events).Perm events :=
    List.perm_insertionSort msgLe events
  have hsymm : ∀ {x y : DispatchEvent},
      x.leaf_index ≠ y.leaf_index → y.leaf_index ≠ x.leaf_index :=
    fun hne => Ne.symm hne
  have hdist2 : (sortDispatchEvents events).Pairwise
      (fun a b => a.leaf_index ≠ b.leaf_index) :=
    (List.Perm.pairwise_iff hsymm hperm).mpr hdist
  have hlt : (sortDispatchEvents events).Pairwise
      (fun a b => a.leaf_index < b.leaf_index) :=
    (hsorted.and hdist2).imp fun hab => lt_of_le_of_ne hab.1 hab.2
  rw [mapChecked_toRaw_leaf hm]
  exact List.pairwise_map.mpr hlt

/-- Witness for C1: the spec scenario — events with leaf indices 5 and 3
arriving in that order over range `[3,5]`; the record with leaf index 3
comes first and the output indices are strictly increasing. -/
theorem fetch_sorted_messages_strictly_increasing_witness :
    ([⟨5, [10]⟩, ⟨3, [20]⟩] : List DispatchEvent).Pairwise
        (fun a b => a.leaf_index ≠ b.leaf_index) ∧
      fetch_sorted_messages [⟨5, [10]⟩, ⟨3, [20]⟩] = .ok [⟨3, [20]⟩, ⟨5, [10]⟩] ∧
      List.Sorted (fun a b : Nat => a < b)
        (([⟨3, [20]⟩, ⟨5, [10]⟩] : List RawCommittedMessage).map
          RawCommittedMessage.leaf_index) :=
  ⟨by decide, by decide,
    fetch_sorted_messages_strictly_increasing [⟨5, [10]⟩, ⟨3, [20]⟩] (by decide)
      [⟨3, [20]⟩, ⟨5, [10]⟩] (by decide)⟩

/-- C5: `state()` maps raw on-chain value 0 to `Waiting` and exactly 0, raw
value 1 to `Failed` and exactly 1, and panics (`unreachable!()`) on every
other raw value — it never returns a recoverable typed error for such a
value and never coerces it into a `State`. -/
theorem state_raw_value_mapping (raw : Nat) :
    (state (.ok raw) = .ok .Waiting ↔ raw = 0) ∧
      (state (.ok raw) = .ok .Failed ↔ raw = 1) ∧
      (raw ≠ 0 → raw ≠ 1 → state (.ok raw) = .panicked) ∧
      ∀ e, state (.ok raw) ≠ .err e := by
  rcases raw with _ | _ | n <;> simp [state]

/-- Witness for C5 at raw values 0, 1 and 2. -/
theorem state_raw_value_mapping_witness :
    state (.ok 0) = .ok .Waiting ∧ state (.ok 1) = .ok .Failed ∧
      state (.ok 2) = .panicked :=
  ⟨(state_raw_value_mapping 0).1.mpr rfl, (state_raw_value_mapping 1).2.1.mpr rfl,
    (state_raw_value_mapping 2).2.2.1 (by decide) (by decide)⟩

/-- C6: the default `process_batch` returns the `BatchingFailed`
capability signal on every non-empty batch and leaves the chain state
untouched — no message is processed. -/
theorem process_batch_default_rejects_nonempty {σ μ : Type} (st : σ)
    (msgs : List (BatchItem μ)) (_hne : msgs ≠ []) :
    (process_batch st msgs).2 = .err .BatchingFailed ∧
      (process_batch st msgs).1 = st :=
  ⟨rfl, rfl⟩

/-- Witness for C6 on a one-element batch. -/
theorem process_batch_default_rejects_nonempty_witness :
    (([⟨⟨0, [], 0, [], 0, []⟩⟩] : List (BatchItem HyperlaneMessage)) ≠ []) ∧
      ((process_batch (0 : Nat)
          ([⟨⟨0, [], 0, [], 0, []⟩⟩] : List (BatchItem HyperlaneMessage))).2 =
            .err .BatchingFailed ∧
        (process_batch (0 : Nat)
          ([⟨⟨0, [], 0, [], 0, []⟩⟩] : List (BatchItem HyperlaneMessage))).1 = 0) :=
  ⟨by simp, process_batch_default_rejects_nonempty 0 _ (by simp)⟩

/-- C9: the default `process_batch` never inspects its input — it returns
the `BatchingFailed` signal and the unchanged state on every input,
including the empty batch; there is no input on which it succeeds. -/
theorem process_batch_default_always_fails {σ μ : Type} (st : σ)
    (msgs : List (BatchItem μ)) :
    process_batch st msgs = (st, .err .BatchingFailed) :=
  rfl

/-- C8: `status(txid)` returns a successful `none` exactly when the
transport reported no receipt (transaction unknown or pending), wraps a
transport failure into a chain-communication error (never into a
successful `none`), and normalizes an existing receipt. -/
theorem status_receipt_mapping (g : RustOutcome Nat (Option TransactionReceipt)) :
    (status g = .ok none ↔ g = .ok none) ∧
      (∀ e, g = .err e → status g = .err (.CustomError e)) ∧
      ((∃ err1, status g = .err err1) ↔ ∃ err2, g = .err err2) ∧
      (∀ r, g = .ok (some r) → status g = .ok (some r.toTxOutcome)) := by
  rcases g with a | e | _
  · rcases a with _ | r <;> simp [status]
  · simp [status]
  · simp [status]

/-- Witness for C8: a pending lookup and a transport failure. -/
theorem status_receipt_mapping_witness :
    status (.ok none) = .ok none ∧ status (.err 3) = .err (.CustomError 3) :=
  ⟨(status_receipt_mapping (.ok none)).1.mpr rfl,
    (status_receipt_mapping (.err 3)).2.1 3 rfl⟩

/-- C2: `fetch_sorted_checkpoints` orders the queried events ascending by
the pair `(block_number, transaction_index)`; the sort is a permutation of
the input and stable (events with equal keys keep their arrival order, as
the filter identity states); in particular two events sharing a block
number come out in ascending transaction position, whatever the arrival
order; and a successful call returns exactly the mapped sorted events. -/
theorem fetch_sorted_checkpoints_sorted_stable
    (events : List (CheckpointCachedEvent × LogMeta)) :
    List.Sorted ckptLe (sortCheckpointEvents events) ∧
      (sortCheckpointEvents events).Perm events ∧
      (∀ k : Nat × Nat,
        (sortCheckpointEvents events).filter (fun e => decide (eventKey e = k)) =
          events.filter (fun e => decide (eventKey e = k))) ∧
      (sortCheckpointEvents events).Pairwise
        (fun a b => a.2.block_number = b.2.block_number →
          a.2.transaction_index ≤ b.2.transaction_index) ∧
      ∀ d rest out rest2,
        fetch_sorted_checkpoints (d :: rest) events = .ok (out, rest2) →
          mapChecked (toCheckpointWithMeta d) (sortCheckpointEvents events) = some out ∧
            rest2 = rest := by
  refine ⟨List.sorted_insertionSort ckptLe events,
    List.perm_insertionSort ckptLe events, ?_, ?_, ?_⟩
  · intro k
    apply filter_insertionSort
    intro x y hx hy
    simp only [decide_eq_true_eq] at hx hy
    unfold eventKey at hx hy
    rw [Prod.ext_iff] at hx hy
    unfold ckptLe
    right
    constructor
    · omega
    · omega
  · refine (List.sorted_insertionSort ckptLe events).imp ?_
    intro a b hab heq
    rcases hab with h1 | h2
    · omega
    · exact h2.2
  · intro d rest out rest2 h
    simp only [fetch_sorted_checkpoints] at h
    rcases hm : mapChecked (toCheckpointWithMeta d) (sortCheckpointEvents events) with
        _ | out2 <;> rw [hm] at h
    · exact RustOutcome.noConfusion h
    · injection h with h2
      rw [Prod.mk.injEq] at h2
      obtain ⟨ho, hr⟩ := h2
      exact ⟨by rw [ho], hr.symm⟩

/-- Witness for C2: the spec scenario — two checkpoint-cache events at
block 100 with transaction positions 2 and 0; the position-0 event comes
out first, and the successful fetch returns the mapped sorted list. -/
theorem fetch_sorted_checkpoints_sorted_stable_witness :
    sortCheckpointEvents [(⟨[1], 11⟩, ⟨100, 2⟩), (⟨[2], 22⟩, ⟨100, 0⟩)] =
        [(⟨[2], 22⟩, ⟨100, 0⟩), (⟨[1], 11⟩, ⟨100, 2⟩)] ∧
      (mapChecked (toCheckpointWithMeta 9)
          (sortCheckpointEvents [(⟨[1], 11⟩, ⟨100, 2⟩), (⟨[2], 22⟩, ⟨100, 0⟩)]) =
            some [⟨⟨9, [2], 22⟩, ⟨100⟩⟩, ⟨⟨9, [1], 11⟩, ⟨100⟩⟩] ∧
        ([] : List Nat) = []) :=
  ⟨by decide,
    (fetch_sorted_checkpoints_sorted_stable
        [(⟨[1], 11⟩, ⟨100, 2⟩), (⟨[2], 22⟩, ⟨100, 0⟩)]).2.2.2.2 9 []
      [⟨⟨9, [2], 22⟩, ⟨100⟩⟩, ⟨⟨9, [1], 11⟩, ⟨100⟩⟩] [] (by decide)⟩

/-- C10: a successful `fetch_sorted_checkpoints` call consumes exactly one
`local_domain` query response per call — the stream shrinks by exactly one
element however many events there are — and every returned checkpoint
carries that single queried domain value; and `local_domain`/`name` on an
`EthereumOutbox` return the values captured from the `ContractLocator` at
construction (they are plain projections, making no network call). -/
theorem fetch_checkpoints_single_domain_query
    (domResps : List Nat) (events : List (CheckpointCachedEvent × LogMeta))
    (out : List CheckpointWithMeta) (rest : List Nat)
    (h : fetch_sorted_checkpoints domResps events = .ok (out, rest)) :
    (∃ d, domResps = d :: rest ∧ ∀ c ∈ out, c.checkpoint.outbox_domain = d) ∧
      ∀ loc : ContractLocator,
        (EthereumOutbox.new loc).local_domain = loc.domain ∧
          (EthereumOutbox.new loc).name = loc.name := by
  constructor
  · rcases domResps with _ | ⟨d, rest0⟩
    · simp only [fetch_sorted_checkpoints] at h
      exact RustOutcome.noConfusion h
    · simp only [fetch_sorted_checkpoints] at h
      rcases hm : mapChecked (toCheckpointWithMeta d) (sortCheckpointEvents events) with
          _ | out2 <;> rw [hm] at h
      · exact RustOutcome.noConfusion h
      · injection h with h2
        rw [Prod.mk.injEq] at h2
        obtain ⟨ho, hr⟩ := h2
        rw [ho] at hm
        rw [hr]
        exact ⟨d, rfl, mapChecked_ckpt_domain d hm⟩
  · intro loc
    exact ⟨rfl, rfl⟩

/-- Witness for C10: two events, a two-element domain-response stream;
exactly one response is consumed and both checkpoints carry it. -/
theorem fetch_checkpoints_single_domain_query_witness :
    fetch_sorted_checkpoints [42, 43] [(⟨[5], 1⟩, ⟨7, 0⟩), (⟨[6], 2⟩, ⟨3, 1⟩)] =
        .ok ([⟨⟨42, [6], 2⟩, ⟨3⟩⟩, ⟨⟨42, [5], 1⟩, ⟨7⟩⟩], [43]) ∧
      ((∃ d, [42, 43] = d :: [43] ∧
          ∀ c ∈ ([⟨⟨42, [6], 2⟩, ⟨3⟩⟩, ⟨⟨42, [5], 1⟩, ⟨7⟩⟩] : List CheckpointWithMeta),
            c.checkpoint.outbox_domain = d) ∧
        ∀ loc : ContractLocator,
          (EthereumOutbox.new loc).local_domain = loc.domain ∧
            (EthereumOutbox.new loc).name = loc.name) :=
  ⟨by decide,
    fetch_checkpoints_single_domain_query [42, 43]
      [(⟨[5], 1⟩, ⟨7, 0⟩), (⟨[6], 2⟩, ⟨3, 1⟩)]
      [⟨⟨42, [6], 2⟩, ⟨3⟩⟩, ⟨⟨42, [5], 1⟩, ⟨7⟩⟩] [43] (by decide)⟩

/-- C3: `latest_cached_checkpoint` resolves the lag target block as
`max(currentTip - lag, 0)` — clamped at the genesis block, never negative
or wrapped; with a lag it consumes exactly one tip query per call and the
read depends only on the oracle at that single resolved block; with no lag
it consumes no tip query and reads at the current head. -/
theorem latest_cached_checkpoint_lag_resolution
    (domain : Nat) (tips : List Nat)
    (readAt readAt2 : Option Nat → RustOutcome ChainCommunicationError (H256 × Nat))
    (lag tip : Nat) (rest : List Nat) :
    ((resolveLagBlock tip lag : Int) = max ((tip : Int) - (lag : Int)) 0) ∧
      (∀ c rest2,
        latest_cached_checkpoint domain tips readAt none = .ok (c, rest2) →
          rest2 = tips) ∧
      (readAt none = readAt2 none →
        latest_cached_checkpoint domain tips readAt none =
          latest_cached_checkpoint domain tips readAt2 none) ∧
      (∀ c rest2,
        latest_cached_checkpoint domain (tip :: rest) readAt (some lag) = .ok (c, rest2) →
          rest2 = rest) ∧
      (readAt (some (resolveLagBlock tip lag)) = readAt2 (some (resolveLagBlock tip lag)) →
        latest_cached_checkpoint domain (tip :: rest) readAt (some lag) =
          latest_cached_checkpoint domain (tip :: rest) readAt2 (some lag)) := by
  refine ⟨?_, ?_, ?_, ?_, ?_⟩
  · unfold resolveLagBlock
    split <;> omega
  · intro c rest2 h
    rcases hr : readAt none with ⟨root, index⟩ | e | _ <;>
      simp only [latest_cached_checkpoint, hr] at h
    · rcases hu : as_u32 index with _ | i <;> rw [hu] at h
      · exact RustOutcome.noConfusion h
      · injection h with h2
        rw [Prod.mk.injEq] at h2
        exact h2.2.symm
    · exact RustOutcome.noConfusion h
    · exact RustOutcome.noConfusion h
  · intro heq
    simp only [latest_cached_checkpoint]
    rw [heq]
  · intro c rest2 h
    rcases hr : readAt (some (resolveLagBlock tip lag)) with ⟨root, index⟩ | e | _ <;>
      simp only [latest_cached_checkpoint, hr] at h
    · rcases hu : as_u32 index with _ | i <;> rw [hu] at h
      · exact RustOutcome.noConfusion h
      · injection h with h2
        rw [Prod.mk.injEq] at h2
        exact h2.2.symm
    · exact RustOutcome.noConfusion h
    · exact RustOutcome.noConfusion h
  · intro heq
    simp only [latest_cached_checkpoint]
    rw [heq]

/-- Witness for C3: a lag of 99 against a tip of 10 resolves to block 0,
the call succeeds at that block and consumes the single scripted tip. -/
theorem latest_cached_checkpoint_lag_resolution_witness :
    latest_cached_checkpoint 5 [10] (fun _ => .ok ([9], 2)) (some 99) =
        .ok (⟨5, [9], 2⟩, []) ∧
      resolveLagBlock 10 99 = 0 ∧
      ([] : List Nat) = [] :=
  ⟨by decide, by decide,
    (latest_cached_checkpoint_lag_resolution 5 [10] (fun _ => .ok ([9], 2))
        (fun _ => .ok ([9], 2)) 99 10 []).2.2.2.1 ⟨5, [9], 2⟩ [] (by decide)⟩

/-- C7: `route` hex-encodes the canonical wire bytes of the message into
the `{ route: { message: <hex> } }` request envelope, issues exactly that
read-only query (the result depends on the query oracle only at that one
request), and on a well-formed response returns the address obtained by
decoding the response's `ism` field with the chain-native decoder; a
transport failure propagates as the typed error. -/
theorem route_query_envelope_and_decode
    (wasm_query q2 : IsmRouteRequest → RustOutcome ChainCommunicationError (List Nat))
    (parseResp : List Nat → Option IsmRouteRespnose)
    (bech32_decode : String → H256) (message : HyperlaneMessage) :
    (∀ data response,
        wasm_query ⟨⟨hexEncode (RawHyperlaneMessage.from message)⟩⟩ = .ok data →
        parseResp data = some response →
        route wasm_query parseResp bech32_decode message =
          .ok (bech32_decode response.ism)) ∧
      (∀ e,
        wasm_query ⟨⟨hexEncode (RawHyperlaneMessage.from message)⟩⟩ = .err e →
        route wasm_query parseResp bech32_decode message = .err e) ∧
      (wasm_query ⟨⟨hexEncode (RawHyperlaneMessage.from message)⟩⟩ =
          q2 ⟨⟨hexEncode (RawHyperlaneMessage.from message)⟩⟩ →
        route wasm_query parseResp bech32_decode message =
          route q2 parseResp bech32_decode message) := by
  refine ⟨?_, ?_, ?_⟩
  · intro data response hq hp
    simp only [route, hq, hp]
  · intro e hq
    simp only [route, hq]
  · intro heq
    simp only [route]
    rw [heq]

/-- Witness for C7 on a concrete message and scripted collaborators. -/
theorem route_query_envelope_and_decode_witness :
    route (fun _ => .ok [0]) (fun _ => some ⟨"addr1"⟩) (fun _ => [7])
        ⟨1, [2], 3, [4], 5, [6]⟩ = .ok [7] :=
  (route_query_envelope_and_decode (fun _ => .ok [0]) (fun _ => .ok [0])
      (fun _ => some ⟨"addr1"⟩) (fun _ => [7]) ⟨1, [2], 3, [4], 5, [6]⟩).1
    [0] ⟨"addr1"⟩ rfl rfl

/-- C4: at the failing input — an on-chain integer of `2 ^ 32`, one past
the `u32` range — the indexer operations panic in the overflow-checked
cast: the call aborts, so no decode-failure error is reported (`panicked`
is a distinct constructor from every `err`) and no truncated value is
returned (distinct from every `ok`). -/
theorem numeric_narrowing_panics_not_decode_error :
    fetch_sorted_messages [⟨2 ^ 32, []⟩] = .panicked ∧
      fetch_sorted_checkpoints [0] [(⟨[], 2 ^ 32⟩, ⟨0, 0⟩)] = .panicked := by
  exact ⟨by decide, by decide⟩
